import Mathlib

set_option maxRecDepth 100000

/-!
Verification of the F1 performance-analysis repository against its
natural-language specification.  The Python source is shallowly embedded:
floating-point lap times, speeds and distances become exact rationals,
pandas dictionaries keyed by timestamp become association lists with
Python dict semantics (insert overwrites an existing key in place,
otherwise appends; delete removes the key), and fallible operations
return Option.
-/

/-! ## Generic helpers (dict as association list, Python-style slices) -/

/-- Keys of an association list, in insertion order (Python dict order). -/
def dictKeys {α : Type} (d : List (Nat × α)) : List Nat :=
  d.map Prod.fst

/-- Python dict assignment: overwrite the value in place when the key is
present, otherwise append the new binding at the end. -/
def dinsert {α : Type} (k : Nat) (v : α) (d : List (Nat × α)) : List (Nat × α) :=
  if (dictKeys d).contains k then
    d.map (fun p => if p.1 = k then (k, v) else p)
  else
    d ++ [(k, v)]

/-- Python `del d[k]`: remove the binding with the given key. -/
def ddel {α : Type} (k : Nat) (d : List (Nat × α)) : List (Nat × α) :=
  d.filter (fun p => p.1 != k)

/-- Python `min(keys)` for a nonempty list of Nat keys; 0 on the empty
list, which the embedded code never reaches. -/
def minNat (l : List Nat) : Nat :=
  match l with
  | [] => 0
  | a :: t => t.foldl min a

/-- Python `max(keys)`, analogous to minNat. -/
def maxNat (l : List Nat) : Nat :=
  match l with
  | [] => 0
  | a :: t => t.foldl max a

/-- Python negative-index slice `l[-n:]`: the last n elements, and the
whole list when n = 0 (Python semantics of -0) or when n exceeds the
length. -/
def lastSlice {α : Type} (l : List α) (n : Nat) : List α :=
  if n = 0 then l else l.drop (l.length - n)

/-- Ascending sort of Nat keys, as Python sorted(keys). -/
def sortNat (l : List Nat) : List Nat :=
  List.insertionSort (fun a b => a ≤ b) l

/-- Ascending sort of rationals, as pandas sorts values before
computing order statistics. -/
def sortRat (l : List ℚ) : List ℚ :=
  List.insertionSort (fun a b => a ≤ b) l

/-- Sum-over-length mean; the guard against the empty list is always
established by the callers, mirroring the source. -/
def ratMean (l : List ℚ) : ℚ :=
  l.sum / l.length

/-- Minimum of a nonempty list of rationals, as pandas Series.min. -/
def ratMin (l : List ℚ) : ℚ :=
  match l with
  | [] => 0
  | a :: t => t.foldl min a

/-- Maximum of a nonempty list of rationals, as pandas Series.max. -/
def ratMax (l : List ℚ) : ℚ :=
  match l with
  | [] => 0
  | a :: t => t.foldl max a

/-! ## live_monitor.py — LiveF1Monitor -/

/-- One row of the simulated timing table (live_monitor.py lines
103-116).  Only the fields that the embedded queries read are modelled;
the remaining simulated columns (sector times, speed trap, compound,
pit stops) are constants never inspected by any query under
verification. -/
structure DriverTiming where
  driver : String
  position : Nat
  lastLapTime : String
  bestLapTime : String
  gapToLeader : String
  tireAge : Nat
deriving DecidableEq

/-- Weather record (live_monitor.py lines 120-130). -/
structure WeatherData where
  airTemperature : ℚ
  trackTemperature : ℚ
  humidity : ℚ
  windSpeed : ℚ
  windDirection : Nat
  rainfall : ℚ
  pressure : ℚ
deriving DecidableEq

/-- One polled live-data payload (live_monitor.py lines 77-84).
Timestamps are modelled as Nat; the source uses ISO strings whose
ordering coincides with chronological order. -/
structure LiveData where
  timestamp : Nat
  drivers : List DriverTiming
  weather : WeatherData
  trackStatus : String
deriving DecidableEq

/-- The session_data dictionary built by start_monitoring
(live_monitor.py lines 38-45).  lap_data is initialized empty and never
written afterwards. -/
structure SessionData where
  sessionInfo : String
  startTime : Nat
  lapData : List Nat
  timingData : List (Nat × List DriverTiming)
  weatherData : List (Nat × WeatherData)
  trackStatus : String
deriving DecidableEq

/-- The monitor object state (live_monitor.py __init__, lines 12-16).
Callbacks are modelled by opaque names; update_interval is the polling
period. -/
structure Monitor where
  isMonitoring : Bool
  sessionData : SessionData
  callbacks : List String
  updateInterval : Nat
deriving DecidableEq

/-- The fresh session_data dictionary assigned by start_monitoring. -/
def freshSessionData (info : String) (now : Nat) : SessionData :=
  { sessionInfo := info
    startTime := now
    lapData := []
    timingData := []
    weatherData := []
    trackStatus := "GREEN" }

/-- Synchronous prefix of start_monitoring (live_monitor.py lines
37-45): unconditionally sets is_monitoring and replaces session_data
with a fresh dictionary.  The source performs no running-state check
and raises no error before entering its polling loop. -/
def startMonitoring (m : Monitor) (info : String) (now : Nat) : Monitor :=
  { m with
    isMonitoring := true
    sessionData := freshSessionData info now }

/-- The number of retained timing snapshots. -/
def sizeTiming (s : SessionData) : Nat :=
  s.timingData.length

/-- Timestamps currently retained in timing_data. -/
def timingKeys (s : SessionData) : List Nat :=
  dictKeys s.timingData

/-- Timestamps currently retained in weather_data. -/
def weatherKeys (s : SessionData) : List Nat :=
  dictKeys s.weatherData

/-- _process_live_data (live_monitor.py lines 141-154): store the
drivers and weather payloads under the snapshot timestamp, update the
track status, and if the timing history then holds more than 100
entries delete the minimal timestamp from both histories. -/
def processLiveData (s : SessionData) (data : LiveData) : SessionData :=
  let s1 : SessionData :=
    { s with
      timingData := dinsert data.timestamp data.drivers s.timingData
      weatherData := dinsert data.timestamp data.weather s.weatherData
      trackStatus := data.trackStatus }
  if s1.timingData.length > 100 then
    let oldestKey := minNat (dictKeys s1.timingData)
    { s1 with
      timingData := ddel oldestKey s1.timingData
      weatherData := ddel oldestKey s1.weatherData }
  else
    s1

/-- get_current_standings (live_monitor.py lines 161-167): the drivers
list stored under the maximal timestamp, or empty when no snapshot is
retained. -/
def getCurrentStandings (s : SessionData) : List DriverTiming :=
  if s.timingData.isEmpty then []
  else
    let latest := maxNat (timingKeys s)
    match s.timingData.find? (fun p => p.1 = latest) with
    | some p => p.2
    | none => []

/-- Result shape of get_driver_history (live_monitor.py lines 169-193). -/
structure DriverHistory where
  timestamps : List Nat
  lapTimes : List String
  positions : List Nat
  gaps : List String
  tireAges : List Nat
deriving DecidableEq

/-- The sorted last-n timestamp window read by get_driver_history. -/
def timingWindow (s : SessionData) (dataPoints : Nat) : List Nat :=
  lastSlice (sortNat (timingKeys s)) dataPoints

/-- The sorted last-n timestamp window read by get_weather_history. -/
def weatherWindow (s : SessionData) (dataPoints : Nat) : List Nat :=
  lastSlice (sortNat (weatherKeys s)) dataPoints

/-- get_driver_history (live_monitor.py lines 169-193): walk the sorted
last-n timestamps and append the first matching row per snapshot for
the requested driver. -/
def getDriverHistory (s : SessionData) (driver : String) (dataPoints : Nat) :
    DriverHistory :=
  let ts := timingWindow s dataPoints
  let rows := ts.filterMap (fun t =>
    match s.timingData.find? (fun p => p.1 = t) with
    | some p =>
      match p.2.find? (fun d => d.driver = driver) with
      | some row => some (t, row)
      | none => none
    | none => none)
  { timestamps := rows.map Prod.fst
    lapTimes := rows.map (fun r => r.2.lastLapTime)
    positions := rows.map (fun r => r.2.position)
    gaps := rows.map (fun r => r.2.gapToLeader)
    tireAges := rows.map (fun r => r.2.tireAge) }

/-- Result shape of get_weather_history (live_monitor.py lines
195-217). -/
structure WeatherHistory where
  timestamps : List Nat
  airTemp : List ℚ
  trackTemp : List ℚ
  humidity : List ℚ
  windSpeed : List ℚ
  rainfall : List ℚ
deriving DecidableEq

/-- Default weather record used as lookup fallback; the source indexes
directly and the key is always present. -/
def weatherDefault : WeatherData :=
  { airTemperature := 0, trackTemperature := 0, humidity := 0
    windSpeed := 0, windDirection := 0, rainfall := 0, pressure := 0 }

/-- get_weather_history (live_monitor.py lines 195-217). -/
def getWeatherHistory (s : SessionData) (dataPoints : Nat) : WeatherHistory :=
  let ts := weatherWindow s dataPoints
  let rows := ts.map (fun t =>
    match s.weatherData.find? (fun p => p.1 = t) with
    | some p => p.2
    | none => weatherDefault)
  { timestamps := ts
    airTemp := rows.map (fun w => w.airTemperature)
    trackTemp := rows.map (fun w => w.trackTemperature)
    humidity := rows.map (fun w => w.humidity)
    windSpeed := rows.map (fun w => w.windSpeed)
    rainfall := rows.map (fun w => w.rainfall) }

/-- Python min over a nonempty list of strings (lexicographic). -/
def strMin (l : List String) : String :=
  match l with
  | [] => ""
  | a :: t => t.foldl (fun acc x => if x < acc then x else acc) a

/-- Result shape of get_session_statistics (live_monitor.py lines
219-234). -/
structure SessionStats where
  sessionDuration : Nat
  totalUpdates : Nat
  currentLeader : Option String
  fastestLap : Option String
  totalDrivers : Nat
deriving DecidableEq

/-- get_session_statistics (live_monitor.py lines 219-234): none models
the empty dict returned when no timing snapshot is retained;
total_updates is the LENGTH OF THE RETAINED timing history.  The
wall-clock now is passed explicitly. -/
def getSessionStatistics (now : Nat) (s : SessionData) : Option SessionStats :=
  if s.timingData.isEmpty then none
  else
    let latestData := getCurrentStandings s
    some
      { sessionDuration := now - s.startTime
        totalUpdates := s.timingData.length
        currentLeader := (latestData.head?).map (fun d => d.driver)
        fastestLap :=
          if latestData.isEmpty then none
          else some (strMin (latestData.map (fun d => d.bestLapTime)))
        totalDrivers := latestData.length }

/-- Snapshot payload with a given timestamp and empty driver table,
used to drive concrete monitoring runs. -/
def mkLiveData (t : Nat) : LiveData :=
  { timestamp := t, drivers := [], weather := weatherDefault, trackStatus := "GREEN" }

/-- Session state freshly initialized by start_monitoring at time 0. -/
def initialSession : SessionData :=
  freshSessionData "test" 0

/-- Process k snapshots with strictly increasing timestamps 1, 2, ..., k
into a freshly started session. -/
def runN (k : Nat) : SessionData :=
  (List.range k).foldl (fun s i => processLiveData s (mkLiveData (i + 1))) initialSession

/-! ## advanced_analyzer.py — telemetry segmentation -/

/-- Minimum over the Python slice l[a:b] (positional, end-exclusive). -/
def sliceMin (l : List ℚ) (a b : Nat) : ℚ :=
  ratMin ((l.drop a).take (b - a))

/-- Maximum over the Python slice l[a:b] (positional, end-exclusive). -/
def sliceMax (l : List ℚ) (a b : Nat) : ℚ :=
  ratMax ((l.drop a).take (b - a))

/-- pandas Series.diff over the speed channel: the first entry is NaN
(modelled none), entry i holds speed i minus speed i-1. -/
def speedDiff (speeds : List ℚ) : List (Option ℚ) :=
  match speeds with
  | [] => []
  | _ :: rest => none :: List.zipWith (fun a b => some (a - b)) rest speeds

/-- Comparison diff < c with NaN comparing false, as in Python. -/
def optLt (d : Option ℚ) (c : ℚ) : Bool :=
  match d with
  | none => false
  | some x => decide (x < c)

/-- Comparison diff > c with NaN comparing false, as in Python. -/
def optGt (d : Option ℚ) (c : ℚ) : Bool :=
  match d with
  | none => false
  | some x => decide (c < x)

/-- One corner record as appended by analyze_cornering_performance
(advanced_analyzer.py lines 161-168): start and end sample indices,
minimum speed over the end-exclusive slice from start to end, speeds
at start and end, and the distance at start (the record carries no end
distance). -/
structure Corner where
  start : Nat
  «end» : Nat
  minSpeed : ℚ
  entrySpeed : ℚ
  exitSpeed : ℚ
  distance : ℚ
deriving DecidableEq

/-- Builder for the corner record of advanced_analyzer.py lines
161-168. -/
def cornerEvent (speeds dists : List ℚ) (s i : Nat) : Corner :=
  { start := s
    «end» := i
    minSpeed := sliceMin speeds s i
    entrySpeed := speeds.getD s 0
    exitSpeed := speeds.getD i 0
    distance := dists.getD s 0 }

/-- The detection loop of analyze_cornering_performance
(advanced_analyzer.py lines 152-169), recursing over the remaining
diff entries with the current enumeration index, the in_corner flag
and the last recorded corner_start. -/
def cornerLoop (speeds dists : List ℚ) :
    List (Option ℚ) → Nat → Bool → Option Nat → List Corner
  | [], _, _, _ => []
  | d :: rest, i, inCorner, cornerStart =>
    if optLt d (-10) && !inCorner then
      cornerLoop speeds dists rest (i + 1) true (some i)
    else if optGt d 5 && inCorner then
      (match cornerStart with
       | some s => [cornerEvent speeds dists s i]
       | none => []) ++ cornerLoop speeds dists rest (i + 1) false cornerStart
    else
      cornerLoop speeds dists rest (i + 1) inCorner cornerStart

/-- analyze_cornering_performance (advanced_analyzer.py lines
148-169), reduced to its pure core: from the speed and distance
channels of one lap, the ordered list of detected corner events. -/
def analyzeCorneringPerformance (speeds dists : List ℚ) : List Corner :=
  cornerLoop speeds dists (speedDiff speeds) 0 false none

/-- State of the two-state corner machine as the spec words it:
OUTSIDE, or INSIDE carrying the recorded start index. -/
inductive CornerState where
  | outside : CornerState
  | inside : Nat → CornerState

/-- First differences of speed between consecutive samples, without
the NaN placeholder: entry j is speed (j+1) minus speed j. -/
def consecutiveDeltas (speeds : List ℚ) : List ℚ :=
  match speeds with
  | [] => []
  | _ :: rest => List.zipWith (fun a b => a - b) rest speeds

/-- Spec-side corner machine, written from the spec wording: walk the
first differences indexed from 1; OUTSIDE goes INSIDE when the delta
is strictly below -10, recording that index as start; INSIDE goes
OUTSIDE when the delta is strictly above 5, emitting the event at that
index; a lap ending INSIDE emits nothing. -/
def specCornerLoop (speeds dists : List ℚ) :
    List ℚ → Nat → CornerState → List Corner
  | [], _, _ => []
  | d :: rest, i, CornerState.outside =>
    if d < -10 then specCornerLoop speeds dists rest (i + 1) (CornerState.inside i)
    else specCornerLoop speeds dists rest (i + 1) CornerState.outside
  | d :: rest, i, CornerState.inside s =>
    if 5 < d then
      cornerEvent speeds dists s i :: specCornerLoop speeds dists rest (i + 1) CornerState.outside
    else specCornerLoop speeds dists rest (i + 1) (CornerState.inside s)

/-- Spec-side corner detector: the machine started OUTSIDE on the
deltas of consecutive samples, the delta between samples i-1 and i
carrying index i. -/
def specCorners (speeds dists : List ℚ) : List Corner :=
  specCornerLoop speeds dists (consecutiveDeltas speeds) 1 CornerState.outside

/-- One braking-zone record as appended by analyze_braking_points
(advanced_analyzer.py lines 434-441): distances and speeds at the
start and end samples, maximum brake pressure over the end-exclusive
slice, and the braking distance (the record carries no sample
indices). -/
structure BrakingZone where
  startDistance : ℚ
  endDistance : ℚ
  startSpeed : ℚ
  endSpeed : ℚ
  maxBrakePressure : ℚ
  brakingDistance : ℚ
deriving DecidableEq

/-- Builder for the braking-zone record of advanced_analyzer.py lines
434-441. -/
def brakingEvent (brakes dists speeds : List ℚ) (s i : Nat) : BrakingZone :=
  { startDistance := dists.getD s 0
    endDistance := dists.getD i 0
    startSpeed := speeds.getD s 0
    endSpeed := speeds.getD i 0
    maxBrakePressure := sliceMax brakes s i
    brakingDistance := dists.getD i 0 - dists.getD s 0 }

/-- The detection loop of analyze_braking_points (advanced_analyzer.py
lines 425-442): enter a zone when brake pressure strictly exceeds 50
while outside, leave and emit when it is at most 50 while inside. -/
def brakeLoop (brakes dists speeds : List ℚ) :
    List ℚ → Nat → Bool → Option Nat → List BrakingZone
  | [], _, _, _ => []
  | b :: rest, i, inBraking, brakeStart =>
    if decide ((50 : ℚ) < b) && !inBraking then
      brakeLoop brakes dists speeds rest (i + 1) true (some i)
    else if decide (b ≤ (50 : ℚ)) && inBraking then
      (match brakeStart with
       | some s => [brakingEvent brakes dists speeds s i]
       | none => []) ++ brakeLoop brakes dists speeds rest (i + 1) false brakeStart
    else
      brakeLoop brakes dists speeds rest (i + 1) inBraking brakeStart

/-- analyze_braking_points (advanced_analyzer.py lines 412-449),
reduced to its pure core over the brake, distance and speed channels
of one lap. -/
def analyzeBrakingPoints (brakes dists speeds : List ℚ) : List BrakingZone :=
  brakeLoop brakes dists speeds brakes 0 false none

/-- The dictionary keys of the corner records built at
advanced_analyzer.py lines 161-168. -/
def cornerRecordKeys : List String :=
  ["start", "end", "min_speed", "entry_speed", "exit_speed", "distance"]

/-- The dictionary keys of the braking-zone records built at
advanced_analyzer.py lines 434-441. -/
def brakingRecordKeys : List String :=
  ["start_distance", "end_distance", "start_speed", "end_speed",
   "max_brake_pressure", "braking_distance"]

/-! ## advanced_analyzer.py — race pace analysis -/

/-- pandas Series.quantile with the default linear interpolation: with
the values sorted ascending and h = q * (n - 1), the value at the
integral position floor h, linearly interpolated toward the next
sorted value by the fractional part of h. -/
def quantile (xs : List ℚ) (q : ℚ) : ℚ :=
  let s := sortRat xs
  let h : ℚ := q * ((s.length : ℚ) - 1)
  let lo : Nat := h.floor.toNat
  let frac : ℚ := h - (h.floor : ℚ)
  s.getD lo 0 + frac * (s.getD (lo + 1) 0 - s.getD lo 0)

/-- pandas Series.std squared: the sample variance with divisor
length - 1.  The source reports the square root of this quantity;
the exact square root is not rational-representable, so the engine is
verified on the variance.  With a single value the source yields NaN
(division by zero); here rational division by zero yields 0. -/
def sampleVariance (l : List ℚ) : ℚ :=
  let m := ratMean l
  (l.map (fun x => (x - m) ^ 2)).sum / ((l.length : ℚ) - 1)

/-- One per-driver entry of generate_race_pace_analysis
(advanced_analyzer.py lines 321-327).  consistencyVar holds the square
of the reported consistency, see sampleVariance. -/
structure PaceSummary where
  averagePace : ℚ
  consistencyVar : ℚ
  fastestLap : ℚ
  totalLaps : Nat
  cleanLaps : Nat
deriving DecidableEq

/-- The per-driver body of generate_race_pace_analysis
(advanced_analyzer.py lines 305-327): drop missing lap times, require
at least 5, Tukey-fence filter on the quartiles, and report mean and
spread of the clean subset together with the minimum of the full valid
set and both counts.  none models the continue that excludes the
driver. -/
def generateRacePaceAnalysis (laps : List (Option ℚ)) : Option PaceSummary :=
  let lapTimes := laps.filterMap id
  if lapTimes.length < 5 then none
  else
    let q1 := quantile lapTimes (1 / 4)
    let q3 := quantile lapTimes (3 / 4)
    let iqr := q3 - q1
    let cleanTimes := lapTimes.filter
      (fun t => decide (q1 - 3 / 2 * iqr ≤ t ∧ t ≤ q3 + 3 / 2 * iqr))
    some
      { averagePace := ratMean cleanTimes
        consistencyVar := sampleVariance cleanTimes
        fastestLap := ratMin lapTimes
        totalLaps := lapTimes.length
        cleanLaps := cleanTimes.length }

/-- Spec-side Tukey fence: the values of xs lying in the closed
interval from Q1 - 1.5 IQR to Q3 + 1.5 IQR. -/
def tukeyClean (xs : List ℚ) : List ℚ :=
  xs.filter (fun t =>
    decide (quantile xs (1 / 4) - 3 / 2 * (quantile xs (3 / 4) - quantile xs (1 / 4)) ≤ t ∧
      t ≤ quantile xs (3 / 4) + 3 / 2 * (quantile xs (3 / 4) - quantile xs (1 / 4))))

/-! ## advanced_analyzer.py — pit stop detection -/

/-- One row of a per-driver lap table: lap number, lap time in seconds
when recorded, tire compound when recorded. -/
structure Lap where
  lapNumber : Nat
  lapTime : Option ℚ
  compound : Option String
deriving DecidableEq

/-- pandas Series.median: middle sorted value, or the mean of the two
middle sorted values for an even count. -/
def medianRat (xs : List ℚ) : ℚ :=
  let s := sortRat xs
  let n := s.length
  if n % 2 = 1 then s.getD (n / 2) 0
  else (s.getD (n / 2 - 1) 0 + s.getD (n / 2) 0) / 2

/-- One pit-stop record as appended by analyze_pit_stop_performance
(advanced_analyzer.py lines 280-286). -/
structure PitStopEvent where
  driver : String
  lapNumber : Nat
  pitTimeDelta : ℚ
  compoundBefore : Option String
  compoundAfter : Option String
deriving DecidableEq

/-- The dropna on LapTime applied to a per-driver lap table
(advanced_analyzer.py line 267). -/
def validLaps (laps : List Lap) : List Lap :=
  laps.filter (fun l => l.lapTime.isSome)

/-- The compound_before lookup (advanced_analyzer.py line 284): the
compound of the first valid lap whose number is the flagged number
minus one; none both when no such valid lap exists and when that lap
has no recorded compound (NaN). -/
def compoundOnPreviousLap (valid : List Lap) (n : Nat) : Option String :=
  match valid.find? (fun p => p.lapNumber + 1 = n) with
  | some p => p.compound
  | none => none

/-- Builder for the pit-stop record of advanced_analyzer.py lines
280-286; for a valid lap the getD never takes its default. -/
def pitStopEvent (driver : String) (medianTime : ℚ) (valid : List Lap) (l : Lap) :
    PitStopEvent :=
  { driver := driver
    lapNumber := l.lapNumber
    pitTimeDelta := l.lapTime.getD 0 - medianTime
    compoundBefore := compoundOnPreviousLap valid l.lapNumber
    compoundAfter := l.compound }

/-- The per-driver body of analyze_pit_stop_performance
(advanced_analyzer.py lines 265-286): drop missing lap times, require
at least 3, and flag every lap whose time strictly exceeds 1.5 times
the median of the valid lap times. -/
def analyzePitStopPerformance (driver : String) (laps : List Lap) : List PitStopEvent :=
  let valid := validLaps laps
  if valid.length < 3 then []
  else
    let medianTime := medianRat (valid.filterMap (fun l => l.lapTime))
    valid.filterMap (fun l =>
      match l.lapTime with
      | some t =>
        if medianTime * (3 / 2) < t then some (pitStopEvent driver medianTime valid l)
        else none
      | none => none)

/-! ## main.py — tire degradation -/

/-- One row of the lap table restricted to a compound
(main.py analyze_tire_performance): driver, lap number, lap time when
recorded. -/
structure CompoundLap where
  driver : String
  lapNumber : Nat
  lapTime : Option ℚ
deriving DecidableEq

/-- Closed form of the degree-one np.polyfit slope: the least-squares
slope of ys against xs. -/
def lsqSlope (xs : List Nat) (ys : List ℚ) : ℚ :=
  let n : ℚ := xs.length
  let sx : ℚ := (xs.map (fun x => (x : ℚ))).sum
  let sy : ℚ := ys.sum
  let sxy : ℚ := (List.zipWith (fun x y => (x : ℚ) * y) xs ys).sum
  let sxx : ℚ := (xs.map (fun x => (x : ℚ) ^ 2)).sum
  (n * sxy - sx * sy) / (n * sxx - sx ^ 2)

/-- pandas unique() over the Driver column: first-appearance order. -/
def uniqueDrivers (laps : List CompoundLap) : List String :=
  laps.foldl (fun acc l => if acc.contains l.driver then acc else acc ++ [l.driver]) []

/-- The rows of one driver within the compound table.  The source
sorts them by lap number before fitting; the least-squares slope is
invariant under that joint permutation of abscissas and ordinates, so
the sort is omitted. -/
def driverLapsOn (laps : List CompoundLap) (d : String) : List CompoundLap :=
  laps.filter (fun l => l.driver == d)

/-- _calculate_degradation (main.py lines 135-154).  The function
never drops missing lap times: a driver with at least 3 rows on the
compound and a missing time feeds NaN into np.polyfit, the fit fails,
and the enclosing bare except returns the 0.0 default for the whole
compound; that failure path is the second branch.  Otherwise one slope
is fit per driver with at least 3 rows, over all of that driver's rows
on the compound, and the slopes are averaged; 0.0 when fewer than 3
rows in total or when no driver qualifies. -/
def calculateDegradation (laps : List CompoundLap) : ℚ :=
  if laps.length < 3 then 0
  else if laps.any
    (fun l => l.lapTime.isNone && decide (3 ≤ (driverLapsOn laps l.driver).length)) then 0
  else
    let rates := (uniqueDrivers laps).filterMap (fun d =>
      let dl := driverLapsOn laps d
      if 3 ≤ dl.length then
        some (lsqSlope (dl.map (fun l => l.lapNumber)) (dl.filterMap (fun l => l.lapTime)))
      else none)
    if rates.isEmpty then 0 else ratMean rates

/-- Follows the spec wording for the missing-field policy: records
with a missing lap time are dropped before the fit, and everything
else proceeds as in calculateDegradation.  Used to exhibit where the
source diverges from that policy. -/
def degradationDroppingMissing (laps : List CompoundLap) : ℚ :=
  let valid := laps.filter (fun l => l.lapTime.isSome)
  if valid.length < 3 then 0
  else
    let rates := (uniqueDrivers valid).filterMap (fun d =>
      let dl := driverLapsOn valid d
      if 3 ≤ dl.length then
        some (lsqSlope (dl.map (fun l => l.lapNumber)) (dl.filterMap (fun l => l.lapTime)))
      else none)
    if rates.isEmpty then 0 else ratMean rates

/-- Split an ordered list of (lap number, lap time) points into
maximal runs of consecutive lap numbers — the stints of the spec
glossary. -/
def splitStints : List (Nat × ℚ) → List (List (Nat × ℚ))
  | [] => []
  | p :: rest =>
    match splitStints rest with
    | [] => [[p]]
    | s :: ss =>
      match s with
      | [] => [p] :: ss
      | q :: _ => if p.1 + 1 = q.1 then (p :: s) :: ss else [p] :: s :: ss

/-- Follows the spec wording for degradation: fit one least-squares
slope per stint (contiguous run of at least 3 laps by one driver on
the compound), average a driver's stint slopes, average across the
qualifying drivers, and report 0.0 when no stint qualifies. -/
def specStintDegradation (laps : List CompoundLap) : ℚ :=
  let rates := (uniqueDrivers laps).filterMap (fun d =>
    let pts := (driverLapsOn laps d).filterMap
      (fun l => l.lapTime.map (fun t => (l.lapNumber, t)))
    let stints := (splitStints pts).filter (fun s => decide (3 ≤ s.length))
    if stints.isEmpty then none
    else some (ratMean (stints.map (fun s => lsqSlope (s.map Prod.fst) (s.map Prod.snd)))))
  if rates.isEmpty then 0 else ratMean rates

/-! ## Concrete inputs used by the claim theorems and witnesses -/

/-- Speed channel of a small lap: one deceleration past -10 at sample
1, recovery past +5 at sample 3. -/
def cornerExampleSpeeds : List ℚ :=
  [100, 85, 70, 80, 95]

/-- Distance channel of the small lap. -/
def cornerExampleDists : List ℚ :=
  [0, 10, 20, 30, 40]

/-- The synthetic pit-stop driver of the spec: laps 90, 90, 90, 90,
140 on mediums. -/
def pitTestLaps : List Lap :=
  [ { lapNumber := 1, lapTime := some 90, compound := some "MEDIUM" },
    { lapNumber := 2, lapTime := some 90, compound := some "MEDIUM" },
    { lapNumber := 3, lapTime := some 90, compound := some "MEDIUM" },
    { lapNumber := 4, lapTime := some 90, compound := some "MEDIUM" },
    { lapNumber := 5, lapTime := some 140, compound := some "MEDIUM" } ]

/-- Lap-time column for the pace witness: 90, 91, 92, 93, 140. -/
def paceWitnessLaps : List (Option ℚ) :=
  [some 90, some 91, some 92, some 93, some 140]

/-- Rising lap times 80, 81, 82, 83 on consecutive laps: degradation
slope one second per lap. -/
def degradationUpLaps : List CompoundLap :=
  [ { driver := "A", lapNumber := 1, lapTime := some 80 },
    { driver := "A", lapNumber := 2, lapTime := some 81 },
    { driver := "A", lapNumber := 3, lapTime := some 82 },
    { driver := "A", lapNumber := 4, lapTime := some 83 } ]

/-- Falling lap times 83, 82, 81, 80 on consecutive laps. -/
def degradationDownLaps : List CompoundLap :=
  [ { driver := "A", lapNumber := 1, lapTime := some 83 },
    { driver := "A", lapNumber := 2, lapTime := some 82 },
    { driver := "A", lapNumber := 3, lapTime := some 81 },
    { driver := "A", lapNumber := 4, lapTime := some 80 } ]

/-- One driver, one compound, two separated stints (laps 1-3 and
20-22), each individually rising by one second per lap. -/
def twoStintLaps : List CompoundLap :=
  [ { driver := "A", lapNumber := 1, lapTime := some 80 },
    { driver := "A", lapNumber := 2, lapTime := some 81 },
    { driver := "A", lapNumber := 3, lapTime := some 82 },
    { driver := "A", lapNumber := 20, lapTime := some 90 },
    { driver := "A", lapNumber := 21, lapTime := some 91 },
    { driver := "A", lapNumber := 22, lapTime := some 92 } ]

/-- One driver with three recorded laps rising by one second per lap
and one lap with a missing time. -/
def missingTimeLaps : List CompoundLap :=
  [ { driver := "A", lapNumber := 1, lapTime := some 80 },
    { driver := "A", lapNumber := 2, lapTime := some 81 },
    { driver := "A", lapNumber := 3, lapTime := some 82 },
    { driver := "A", lapNumber := 4, lapTime := none } ]

/-- Brake channel of a small lap: one zone, pressure above 50 at
samples 1 and 2. -/
def brakeExamplePressures : List ℚ :=
  [0, 60, 70, 40, 0]

/-- Distance channel of the small braking lap, monotone
non-decreasing as the telemetry data model requires. -/
def brakeExampleDists : List ℚ :=
  [0, 10, 20, 30, 40]

/-- Speed channel of the small braking lap. -/
def brakeExampleSpeeds : List ℚ :=
  [200, 150, 100, 120, 180]

/-- A timing/weather history filled to exactly the capacity of 100
with timestamps 1 through 100. -/
def fullSession : SessionData :=
  { initialSession with
    timingData := (List.range' 1 100).map (fun t => (t, ([] : List DriverTiming)))
    weatherData := (List.range' 1 100).map (fun t => (t, weatherDefault)) }

/-- A monitor that is RUNNING and has accumulated one snapshot. -/
def runningMonitor : Monitor :=
  { isMonitoring := true
    sessionData := processLiveData initialSession (mkLiveData 1)
    callbacks := ["subscriberA", "subscriberB"]
    updateInterval := 5 }

/-! ## Helper lemmas -/

/-- The executable Batteries floor on ℚ agrees with the Mathlib floor. -/
theorem ratFloor_eq_intFloor (q : ℚ) : q.floor = ⌊q⌋ := by
  rw [Rat.floor_def', ← Rat.floor_def]

/-! ## C7 — start on a RUNNING aggregator -/

/-- C7 counterexample: on a RUNNING monitor holding one snapshot,
start_monitoring is not rejected; it empties the accumulated timing
history and replaces the session state, so the claim that the call is
reported as a usage error and leaves all existing state unchanged is
false. -/
theorem start_while_running_cx :
    runningMonitor.isMonitoring = true ∧
    runningMonitor.sessionData.timingData ≠ [] ∧
    (startMonitoring runningMonitor "restart" 5).sessionData.timingData = [] ∧
    (startMonitoring runningMonitor "restart" 5).sessionData ≠ runningMonitor.sessionData := by
  refine ⟨rfl, by decide, rfl, by decide⟩

/-- C7 amended: calling start on a RUNNING aggregator is accepted
without any error signal; it keeps the running flag set, preserves the
registered callbacks and the polling interval, and reinitializes the
session state to a fresh dictionary, discarding the accumulated
history and the previous session start time. -/
theorem start_while_running_amended (m : Monitor) (info : String) (now : Nat)
    (_hrun : m.isMonitoring = true) :
    (startMonitoring m info now).isMonitoring = true ∧
    (startMonitoring m info now).callbacks = m.callbacks ∧
    (startMonitoring m info now).updateInterval = m.updateInterval ∧
    (startMonitoring m info now).sessionData = freshSessionData info now := by
  exact ⟨rfl, rfl, rfl, rfl⟩

/-- C7 witness: the amended theorem applied to the concrete running
monitor. -/
theorem start_while_running_amended_witness :
    (startMonitoring runningMonitor "restart" 5).isMonitoring = true ∧
    (startMonitoring runningMonitor "restart" 5).callbacks = runningMonitor.callbacks ∧
    (startMonitoring runningMonitor "restart" 5).updateInterval = runningMonitor.updateInterval ∧
    (startMonitoring runningMonitor "restart" 5).sessionData = freshSessionData "restart" 5 :=
  start_while_running_amended runningMonitor "restart" 5 rfl

/-! ## C8 — segment event shape -/

/-- C8 counterexample: corner records and braking-zone records do not
share one shape.  A corner record has no end_distance entry (its only
distance entry is the start distance) and no start_distance or
end_distance keys; a braking-zone record has no sample-index entries
at all; the two key sets differ. -/
theorem segment_event_shape_cx :
    cornerRecordKeys ≠ brakingRecordKeys ∧
    "end_distance" ∉ cornerRecordKeys ∧
    "start_distance" ∉ cornerRecordKeys ∧
    "start" ∉ brakingRecordKeys ∧
    "end" ∉ brakingRecordKeys := by
  refine ⟨by decide, by decide, by decide, by decide, by decide⟩

/-! ## C5 — degradation is fit per driver, not per contiguous stint -/

/-- C5 counterexample: on one driver running two separated
one-second-per-lap stints (laps 1-3 and 20-22) on a compound, the
source fits a single line across all six laps and reports 578/1091,
while the stint-based rule of the spec reports 1; the two disagree. -/
theorem degradation_stint_cx :
    calculateDegradation twoStintLaps = 578 / 1091 ∧
    specStintDegradation twoStintLaps = 1 ∧
    calculateDegradation twoStintLaps ≠ specStintDegradation twoStintLaps := by
  refine ⟨by with_unfolding_all decide, by with_unfolding_all decide,
    by with_unfolding_all decide⟩

/-! ## C9 — missing lap times in degradation are not dropped -/

/-- C9 counterexample: a driver with three recorded laps rising one
second per lap plus one lap with a missing time.  Dropping the missing
record first, as the spec prescribes, yields slope 1; the source
instead feeds the missing value into the fit and the failure collapses
the whole compound to the 0.0 default. -/
theorem missing_lap_time_cx :
    calculateDegradation missingTimeLaps = 0 ∧
    degradationDroppingMissing missingTimeLaps = 1 ∧
    calculateDegradation missingTimeLaps ≠ degradationDroppingMissing missingTimeLaps := by
  refine ⟨by with_unfolding_all decide, by with_unfolding_all decide,
    by with_unfolding_all decide⟩

/-! ## C2 — corner detection state machine -/

/-- With the NaN head already consumed, the source loop over remaining
genuine deltas agrees with the spec machine: a false in_corner flag
with any stale corner_start corresponds to OUTSIDE, a true flag with
recorded start s to INSIDE s. -/
theorem cornerLoop_eq_spec (speeds dists : List ℚ) (ds : List ℚ) :
    ∀ i : Nat,
      (∀ cs, cornerLoop speeds dists (ds.map some) i false cs =
        specCornerLoop speeds dists ds i CornerState.outside) ∧
      (∀ s, cornerLoop speeds dists (ds.map some) i true (some s) =
        specCornerLoop speeds dists ds i (CornerState.inside s)) := by
  induction ds with
  | nil => exact fun i => ⟨fun cs => rfl, fun s => rfl⟩
  | cons d rest ih =>
    intro i
    constructor
    · intro cs
      simp only [List.map_cons, cornerLoop, specCornerLoop, optLt, optGt]
      by_cases hd : d < -10
      · simp [hd, (ih (i + 1)).2 i]
      · simp [hd, (ih (i + 1)).1 cs]
    · intro s
      simp only [List.map_cons, cornerLoop, specCornerLoop, optLt, optGt]
      by_cases hd : (5 : ℚ) < d
      · simp [hd, (ih (i + 1)).1 (some s)]
      · simp [hd, (ih (i + 1)).2 s]

/-- The full corner detector agrees with the spec machine: the NaN
first difference triggers no transition and the remaining deltas are
the consecutive-sample differences indexed from 1. -/
theorem analyzeCornering_eq_spec (speeds dists : List ℚ) :
    analyzeCorneringPerformance speeds dists = specCorners speeds dists := by
  cases speeds with
  | nil => rfl
  | cons a rest =>
    show cornerLoop (a :: rest) dists
        (none :: List.zipWith (fun x y => some (x - y)) rest (a :: rest)) 0 false none =
      specCornerLoop (a :: rest) dists
        (List.zipWith (fun x y => x - y) rest (a :: rest)) 1 CornerState.outside
    have hz : List.zipWith (fun x y => some (x - y)) rest (a :: rest) =
        (List.zipWith (fun x y => x - y) rest (a :: rest)).map some := by
      rw [List.map_zipWith]
    rw [hz]
    simp only [cornerLoop, optLt, Bool.false_and, Bool.and_false]
    exact (cornerLoop_eq_spec (a :: rest) dists _ 1).1 none

/-- C2: corner detection is the two-state machine over first
differences of speed described by the spec — OUTSIDE goes INSIDE
exactly on a delta strictly below -10 (recording that index as start),
INSIDE goes OUTSIDE exactly on a delta strictly above 5 (emitting the
event with min speed over the end-exclusive start-to-end slice, entry
speed at start, exit speed at end); a lap ending INSIDE emits no
trailing event, and empty or single-sample input yields no events.
The last conjunct checks a concrete lap emitting one event. -/
theorem corner_detection_state_machine :
    (∀ speeds dists : List ℚ,
        analyzeCorneringPerformance speeds dists = specCorners speeds dists) ∧
    (∀ dists : List ℚ, analyzeCorneringPerformance [] dists = []) ∧
    (∀ (v : ℚ) (dists : List ℚ), analyzeCorneringPerformance [v] dists = []) ∧
    analyzeCorneringPerformance cornerExampleSpeeds cornerExampleDists =
      [{ start := 1, «end» := 3, minSpeed := 70, entrySpeed := 85,
         exitSpeed := 80, distance := 10 }] := by
  refine ⟨analyzeCornering_eq_spec, fun dists => rfl, fun v dists => rfl,
    by with_unfolding_all decide⟩

/-! ## C8 (amended) — per-detector event invariants -/

/-- Every corner event emitted from a loop state whose in_corner flag
implies a recorded start below the current index has its start index
strictly below its end index. -/
theorem cornerLoop_start_lt (speeds dists : List ℚ) :
    ∀ (ds : List (Option ℚ)) (i : Nat) (inC : Bool) (cs : Option Nat),
      (inC = true → ∃ s, cs = some s ∧ s < i) →
      ∀ e ∈ cornerLoop speeds dists ds i inC cs, e.start < e.«end» := by
  intro ds
  induction ds with
  | nil =>
    intro i inC cs _ e he
    simp only [cornerLoop, List.not_mem_nil] at he
  | cons d rest ih =>
    intro i inC cs hinv e he
    simp only [cornerLoop] at he
    by_cases h1 : (optLt d (-10) && !inC) = true
    · rw [if_pos h1] at he
      exact ih (i + 1) true (some i) (fun _ => ⟨i, rfl, Nat.lt_succ_self i⟩) e he
    · rw [if_neg h1] at he
      by_cases h2 : (optGt d 5 && inC) = true
      · rw [if_pos h2] at he
        have hin : inC = true := ((Bool.and_eq_true _ _).mp h2).2
        obtain ⟨s, hcs, hsi⟩ := hinv hin
        subst hcs
        simp only [List.mem_append, List.mem_singleton] at he
        rcases he with he | he
        · subst he
          exact hsi
        · exact ih (i + 1) false (some s) (fun h => absurd h (by simp)) e he
      · rw [if_neg h2] at he
        refine ih (i + 1) inC cs ?_ e he
        intro hin
        obtain ⟨s, hcs, hsi⟩ := hinv hin
        exact ⟨s, hcs, Nat.lt_succ_of_lt hsi⟩

/-- Positional getD with in-range indices is monotone along a sorted
list. -/
theorem sorted_getD_mono (l : List ℚ)
    (hs : List.Sorted (fun a b => a ≤ b) l) (a b : Nat)
    (hab : a ≤ b) (hb : b < l.length) : l.getD a 0 ≤ l.getD b 0 := by
  have ha : a < l.length := lt_of_le_of_lt hab hb
  rw [List.getD_eq_getElem l 0 ha, List.getD_eq_getElem l 0 hb]
  rcases Nat.eq_or_lt_of_le hab with heq | hlt
  · subst heq
    exact le_refl _
  · have := hs.rel_get_of_lt (a := ⟨a, ha⟩) (b := ⟨b, hb⟩) hlt
    simpa [List.get_eq_getElem] using this

/-- Every braking zone emitted from a loop state with in-range current
index and recorded start below it has its start distance at most its
end distance, whenever the distance channel is sorted and at least as
long as the brake channel. -/
theorem brakeLoop_dist_mono (brakes dists speeds : List ℚ)
    (hs : List.Sorted (fun a b => a ≤ b) dists)
    (hlen : brakes.length ≤ dists.length) :
    ∀ (ds : List ℚ) (i : Nat) (inB : Bool) (bs : Option Nat),
      i + ds.length ≤ brakes.length →
      (inB = true → ∃ s, bs = some s ∧ s < i) →
      ∀ z ∈ brakeLoop brakes dists speeds ds i inB bs,
        z.startDistance ≤ z.endDistance := by
  intro ds
  induction ds with
  | nil =>
    intro i inB bs _ _ z hz
    simp only [brakeLoop, List.not_mem_nil] at hz
  | cons d rest ih =>
    intro i inB bs hrange hinv z hz
    have hrange1 : (i + 1) + rest.length ≤ brakes.length := by
      simpa [Nat.add_comm, Nat.add_left_comm, Nat.add_assoc] using hrange
    have hi : i < brakes.length := by
      have : i + 1 ≤ brakes.length := le_trans (Nat.le_add_right _ _) hrange1
      omega
    simp only [brakeLoop] at hz
    by_cases h1 : (decide ((50 : ℚ) < d) && !inB) = true
    · rw [if_pos h1] at hz
      exact ih (i + 1) true (some i) hrange1 (fun _ => ⟨i, rfl, Nat.lt_succ_self i⟩) z hz
    · rw [if_neg h1] at hz
      by_cases h2 : (decide (d ≤ (50 : ℚ)) && inB) = true
      · rw [if_pos h2] at hz
        have hin : inB = true := ((Bool.and_eq_true _ _).mp h2).2
        obtain ⟨s, hbs, hsi⟩ := hinv hin
        subst hbs
        simp only [List.mem_append, List.mem_singleton] at hz
        rcases hz with hz | hz
        · subst hz
          exact sorted_getD_mono dists hs s i (Nat.le_of_lt hsi)
            (lt_of_lt_of_le hi hlen)
        · exact ih (i + 1) false (some s) hrange1 (fun h => absurd h (by simp)) z hz
      · rw [if_neg h2] at hz
        refine ih (i + 1) inB bs hrange1 ?_ z hz
        intro hin
        obtain ⟨s, hbs, hsi⟩ := hinv hin
        exact ⟨s, hbs, Nat.lt_succ_of_lt hsi⟩

/-- C8 (amended): the two detectors emit records of different shapes
(see the counterexample), and each satisfies its own invariant: every
corner event has start index strictly below end index, and every
braking-zone event has start distance at most end distance whenever
the distance channel is monotone non-decreasing and covers the brake
channel, as the telemetry data model requires. -/
theorem segment_event_invariants_amended :
    (∀ (speeds dists : List ℚ) (e : Corner),
        e ∈ analyzeCorneringPerformance speeds dists → e.start < e.«end») ∧
    (∀ brakes dists speeds : List ℚ,
        List.Sorted (fun a b => a ≤ b) dists →
        brakes.length ≤ dists.length →
        ∀ z ∈ analyzeBrakingPoints brakes dists speeds,
          z.startDistance ≤ z.endDistance) := by
  constructor
  · intro speeds dists e he
    exact cornerLoop_start_lt speeds dists (speedDiff speeds) 0 false none
      (by simp) e he
  · intro brakes dists speeds hs hlen z hz
    exact brakeLoop_dist_mono brakes dists speeds hs hlen brakes 0 false none
      (by simp) (by simp) z hz

/-- C8 witness: the amended invariants discharged on the concrete
corner lap and the concrete braking lap. -/
theorem segment_event_invariants_amended_witness :
    ({ start := 1, «end» := 3, minSpeed := 70, entrySpeed := 85,
       exitSpeed := 80, distance := 10 } : Corner).start <
      ({ start := 1, «end» := 3, minSpeed := 70, entrySpeed := 85,
         exitSpeed := 80, distance := 10 } : Corner).«end» ∧
    ({ startDistance := 10, endDistance := 30, startSpeed := 150,
       endSpeed := 120, maxBrakePressure := 70, brakingDistance := 20 } :
        BrakingZone).startDistance ≤
      ({ startDistance := 10, endDistance := 30, startSpeed := 150,
         endSpeed := 120, maxBrakePressure := 70, brakingDistance := 20 } :
          BrakingZone).endDistance :=
  ⟨segment_event_invariants_amended.1 cornerExampleSpeeds cornerExampleDists _
      (by with_unfolding_all decide),
    segment_event_invariants_amended.2 brakeExamplePressures brakeExampleDists
      brakeExampleSpeeds (by with_unfolding_all decide) (by decide) _
      (by with_unfolding_all decide)⟩

/-! ## Helper lemmas on the dict model -/

/-- Folding min never rises above the accumulator. -/
theorem foldl_min_le_init (t : List Nat) : ∀ a, t.foldl min a ≤ a := by
  induction t with
  | nil => intro a; exact le_refl a
  | cons x xs ih =>
    intro a
    exact le_trans (ih (min a x)) (Nat.min_le_left a x)

/-- Folding min stays below every element folded over. -/
theorem foldl_min_le_mem (t : List Nat) : ∀ a, ∀ x ∈ t, t.foldl min a ≤ x := by
  induction t with
  | nil => intro a x hx; cases hx
  | cons y ys ih =>
    intro a x hx
    rcases List.mem_cons.mp hx with rfl | hx
    · exact le_trans (foldl_min_le_init ys (min a x)) (Nat.min_le_right a x)
    · exact ih (min a y) x hx

/-- Folding min lands on the accumulator or on a folded element. -/
theorem foldl_min_mem (t : List Nat) : ∀ a, t.foldl min a = a ∨ t.foldl min a ∈ t := by
  induction t with
  | nil => intro a; exact Or.inl rfl
  | cons x xs ih =>
    intro a
    show xs.foldl min (min a x) = a ∨ xs.foldl min (min a x) ∈ x :: xs
    rcases ih (min a x) with h | h
    · rcases Nat.le_total a x with hax | hxa
      · exact Or.inl (h.trans (Nat.min_eq_left hax))
      · refine Or.inr ?_
        rw [h, Nat.min_eq_right hxa]
        exact List.mem_cons_self x xs
    · exact Or.inr (List.mem_cons_of_mem x h)

/-- The Python min of a nonempty key list is one of the keys. -/
theorem minNat_mem (l : List Nat) (h : l ≠ []) : minNat l ∈ l := by
  match l with
  | [] => exact absurd rfl h
  | a :: t =>
    rcases foldl_min_mem t a with h1 | h1
    · show t.foldl min a ∈ a :: t
      rw [h1]
      exact List.mem_cons_self a t
    · exact List.mem_cons_of_mem a h1

/-- The Python min of a key list bounds every key from below. -/
theorem minNat_le (l : List Nat) : ∀ x ∈ l, minNat l ≤ x := by
  match l with
  | [] => intro x hx; cases hx
  | a :: t =>
    intro x hx
    rcases List.mem_cons.mp hx with rfl | hx
    · exact foldl_min_le_init t x
    · exact foldl_min_le_mem t a x hx

/-- Inserting a key already present leaves the key list unchanged;
otherwise the new key is appended. -/
theorem dictKeys_dinsert {α : Type} (k : Nat) (v : α) (d : List (Nat × α)) :
    dictKeys (dinsert k v d) =
      if (dictKeys d).contains k then dictKeys d else dictKeys d ++ [k] := by
  unfold dinsert
  split
  · next hc =>
    unfold dictKeys
    rw [List.map_map]
    apply List.map_congr_left
    intro p _
    by_cases hp : p.1 = k
    · simp [hp]
    · simp [hp]
  · next hc =>
    simp [dictKeys]

/-- Inserting a fresh key is exactly an append. -/
theorem dinsert_fresh {α : Type} (k : Nat) (v : α) (d : List (Nat × α))
    (h : k ∉ dictKeys d) : dinsert k v d = d ++ [(k, v)] := by
  have hc : (dictKeys d).contains k = false := by simp [h]
  unfold dinsert
  rw [hc]
  simp

/-- Deleting a key filters it out of the key list. -/
theorem dictKeys_ddel {α : Type} (k : Nat) (d : List (Nat × α)) :
    dictKeys (ddel k d) = (dictKeys d).filter (fun t => t != k) := by
  induction d with
  | nil => rfl
  | cons p rest ih =>
    by_cases hp : (p.1 != k) = true
    · simp only [ddel, dictKeys, List.filter_cons, hp, List.map_cons]
      exact congrArg (p.1 :: ·) ih
    · simp only [ddel, dictKeys, List.filter_cons, hp, List.map_cons]
      simpa [ddel, dictKeys] using ih

/-- The retained snapshot count equals the key-list length. -/
theorem sizeTiming_eq_keys_length (s : SessionData) :
    sizeTiming s = (timingKeys s).length := by
  simp [sizeTiming, timingKeys, dictKeys]

/-- An insertion grows the table by at most one row. -/
theorem length_dinsert_le {α : Type} (k : Nat) (v : α) (d : List (Nat × α)) :
    (dinsert k v d).length ≤ d.length + 1 := by
  unfold dinsert
  split
  · simp
  · simp

/-- The timing table after one processing step: insert, then evict the
minimal key when the table exceeds 100 rows. -/
theorem processLiveData_timingData (s : SessionData) (d : LiveData) :
    (processLiveData s d).timingData =
      if (dinsert d.timestamp d.drivers s.timingData).length > 100 then
        ddel (minNat (dictKeys (dinsert d.timestamp d.drivers s.timingData)))
          (dinsert d.timestamp d.drivers s.timingData)
      else dinsert d.timestamp d.drivers s.timingData := by
  by_cases h : (dinsert d.timestamp d.drivers s.timingData).length > 100
  · simp [processLiveData, h]
  · simp [processLiveData, h]

/-- The weather table after one processing step: insert under the same
timestamp, then evict the minimal TIMING key when the timing table
exceeds 100 rows. -/
theorem processLiveData_weatherData (s : SessionData) (d : LiveData) :
    (processLiveData s d).weatherData =
      if (dinsert d.timestamp d.drivers s.timingData).length > 100 then
        ddel (minNat (dictKeys (dinsert d.timestamp d.drivers s.timingData)))
          (dinsert d.timestamp d.weather s.weatherData)
      else dinsert d.timestamp d.weather s.weatherData := by
  by_cases h : (dinsert d.timestamp d.drivers s.timingData).length > 100
  · simp [processLiveData, h]
  · simp [processLiveData, h]

/-! ## C1 — bounded history and eviction -/

/-- Both runN 105 histories retain exactly the timestamps 6 through
105. -/
theorem runN105_keys :
    timingKeys (runN 105) = List.range' 6 100 ∧
    weatherKeys (runN 105) = List.range' 6 100 := by
  constructor
  · decide
  · decide

/-- C1: the timing history respects its capacity of 100 after every
completed insertion; inserting with the history full and the timestamp
fresh evicts exactly the single minimal (oldest) timestamp, leaving
100 entries; inserting 105 snapshots with strictly increasing
timestamps 1..105 into a fresh session retains exactly the 100 most
recent timestamps 6..105 in both histories, and the oldest 5
timestamps are absent from the retained keys and hence unreachable
from every query. -/
theorem bounded_history_invariant_and_eviction :
    (∀ (s : SessionData) (d : LiveData),
        sizeTiming s ≤ 100 → sizeTiming (processLiveData s d) ≤ 100) ∧
    (∀ (s : SessionData) (d : LiveData),
        sizeTiming s = 100 → d.timestamp ∉ timingKeys s → (timingKeys s).Nodup →
          timingKeys (processLiveData s d) =
            (timingKeys s ++ [d.timestamp]).erase
              (minNat (timingKeys s ++ [d.timestamp])) ∧
          sizeTiming (processLiveData s d) = 100) ∧
    timingKeys (runN 105) = List.range' 6 100 ∧
    weatherKeys (runN 105) = List.range' 6 100 ∧
    (∀ t ∈ List.range' 1 5, t ∉ timingKeys (runN 105) ∧ t ∉ weatherKeys (runN 105)) := by
  refine ⟨?_, ?_, runN105_keys.1, runN105_keys.2, ?_⟩
  · intro s d h
    simp only [sizeTiming, processLiveData_timingData]
    split
    · next hgt =>
      set t1 := dinsert d.timestamp d.drivers s.timingData with ht1
      have hne : dictKeys t1 ≠ [] := by
        intro hk
        have h0 : (dictKeys t1).length = 0 := by rw [hk]; rfl
        have h1 : (dictKeys t1).length = t1.length := List.length_map t1 Prod.fst
        omega
      obtain ⟨p, hp, hpk⟩ := List.mem_map.mp (minNat_mem (dictKeys t1) hne)
      have hlt : (t1.filter (fun q => q.1 != minNat (dictKeys t1))).length < t1.length :=
        List.length_filter_lt_length_iff_exists.mpr ⟨p, hp, by simp [hpk]⟩
      have hle : t1.length ≤ s.timingData.length + 1 := length_dinsert_le _ _ _
      have h100 : s.timingData.length ≤ 100 := h
      show (ddel (minNat (dictKeys t1)) t1).length ≤ 100
      unfold ddel
      omega
    · next hng =>
      omega
  · intro s d h100 hfresh hnodup
    have hins : dinsert d.timestamp d.drivers s.timingData =
        s.timingData ++ [(d.timestamp, d.drivers)] :=
      dinsert_fresh _ _ _ hfresh
    have hkeys : dictKeys (dinsert d.timestamp d.drivers s.timingData) =
        timingKeys s ++ [d.timestamp] := by
      rw [hins]
      simp [dictKeys, timingKeys]
    have hlen : (dinsert d.timestamp d.drivers s.timingData).length = 101 := by
      have h1 : s.timingData.length = 100 := h100
      rw [hins, List.length_append, h1]
      rfl
    have hnodup2 : (timingKeys s ++ [d.timestamp]).Nodup := by
      rw [List.nodup_append]
      exact ⟨hnodup, List.nodup_singleton _, List.disjoint_singleton.mpr hfresh⟩
    have hne : timingKeys s ++ [d.timestamp] ≠ [] := by simp
    have hmem := minNat_mem _ hne
    have hkeq : timingKeys (processLiveData s d) =
        (timingKeys s ++ [d.timestamp]).erase
          (minNat (timingKeys s ++ [d.timestamp])) := by
      rw [show timingKeys (processLiveData s d) =
          dictKeys (processLiveData s d).timingData from rfl,
        processLiveData_timingData]
      rw [if_pos (by rw [hlen]; omega)]
      rw [dictKeys_ddel, hkeys, hnodup2.erase_eq_filter]
    refine ⟨hkeq, ?_⟩
    rw [sizeTiming_eq_keys_length, hkeq, List.length_erase_of_mem hmem,
      List.length_append]
    have h1 : (timingKeys s).length = 100 := by
      rw [← sizeTiming_eq_keys_length]
      exact h100
    rw [h1]
    rfl
  · intro t ht
    rw [runN105_keys.1, runN105_keys.2]
    revert ht
    revert t
    decide

/-- C1 witness: the invariant discharged on a fresh session, the
eviction equation discharged on a history filled to capacity, and the
unreachability of timestamp 1 after the 105-snapshot run. -/
theorem bounded_history_invariant_and_eviction_witness :
    sizeTiming (processLiveData initialSession (mkLiveData 1)) ≤ 100 ∧
    (timingKeys (processLiveData fullSession (mkLiveData 101)) =
        (timingKeys fullSession ++ [(mkLiveData 101).timestamp]).erase
          (minNat (timingKeys fullSession ++ [(mkLiveData 101).timestamp])) ∧
      sizeTiming (processLiveData fullSession (mkLiveData 101)) = 100) ∧
    (1 ∉ timingKeys (runN 105) ∧ 1 ∉ weatherKeys (runN 105)) :=
  ⟨bounded_history_invariant_and_eviction.1 initialSession (mkLiveData 1) (by decide),
    bounded_history_invariant_and_eviction.2.1 fullSession (mkLiveData 101)
      (by decide) (by decide) (by decide),
    bounded_history_invariant_and_eviction.2.2.2.2 1 (by decide)⟩

/-! ## C10 — timing and weather histories stay key-paired -/

/-- C10: if the timing and weather histories hold the same timestamp
keys before a processing step, they hold the same keys after it — the
step inserts under one shared timestamp into both tables and evicts
one shared oldest timestamp from both — and consequently the sorted
last-n windows read by get_driver_history and get_weather_history
coincide for every window size. -/
theorem timing_weather_keys_paired (s : SessionData) (d : LiveData)
    (h : timingKeys s = weatherKeys s) :
    timingKeys (processLiveData s d) = weatherKeys (processLiveData s d) ∧
    ∀ n : Nat, timingWindow (processLiveData s d) n =
      weatherWindow (processLiveData s d) n := by
  have hins : dictKeys (dinsert d.timestamp d.drivers s.timingData) =
      dictKeys (dinsert d.timestamp d.weather s.weatherData) := by
    rw [dictKeys_dinsert, dictKeys_dinsert]
    simp only [timingKeys, weatherKeys] at h
    rw [h]
  have hmain : timingKeys (processLiveData s d) = weatherKeys (processLiveData s d) := by
    rw [show timingKeys (processLiveData s d) =
        dictKeys (processLiveData s d).timingData from rfl,
      show weatherKeys (processLiveData s d) =
        dictKeys (processLiveData s d).weatherData from rfl,
      processLiveData_timingData, processLiveData_weatherData]
    split
    · rw [dictKeys_ddel, dictKeys_ddel, hins]
    · exact hins
  refine ⟨hmain, fun n => ?_⟩
  simp only [timingWindow, weatherWindow, hmain]

/-- C10 witness: the pairing discharged on a fresh session receiving
its first snapshot. -/
theorem timing_weather_keys_paired_witness :
    timingKeys (processLiveData initialSession (mkLiveData 1)) =
      weatherKeys (processLiveData initialSession (mkLiveData 1)) ∧
    ∀ n : Nat, timingWindow (processLiveData initialSession (mkLiveData 1)) n =
      weatherWindow (processLiveData initialSession (mkLiveData 1)) n :=
  timing_weather_keys_paired initialSession (mkLiveData 1) rfl

/-! ## C6 — session_statistics total_updates counts retained, not received -/

/-- C6 counterexample: after 105 successfully processed snapshots the
source reports total_updates 100 — the length of the retained
capacity-100 history — not the 105 updates actually received, so the
claim that total_updates equals the number of processed snapshots even
beyond capacity is false.  (The capacity is hard-coded to 100; the
capacity-5 configuration of the claim does not exist in the source.) -/
theorem session_statistics_retained_cx :
    (getSessionStatistics 0 (runN 105)).map (fun r => r.totalUpdates) = some 100 ∧
    (100 : Nat) ≠ 105 := by
  constructor
  · have hlen : (runN 105).timingData.length = 100 := by
      have h1 := congrArg List.length runN105_keys.1
      simpa [timingKeys, dictKeys] using h1
    have hne : ¬((runN 105).timingData.isEmpty = true) := by
      rw [List.isEmpty_iff]
      intro h0
      rw [h0] at hlen
      exact absurd hlen (by decide)
    unfold getSessionStatistics
    rw [if_neg hne]
    simp [hlen]
  · decide

/-- C6 (amended): session_statistics reports the RETAINED count —
total_updates equals the current length of the bounded timing history,
not the number of updates received since start.  After 10 snapshots
into the capacity-100 history that length is 10, and after 105
snapshots it is 100. -/
theorem session_statistics_total_updates_amended :
    (∀ (now : Nat) (s : SessionData) (r : SessionStats),
        getSessionStatistics now s = some r → r.totalUpdates = sizeTiming s) ∧
    sizeTiming (runN 10) = 10 ∧
    sizeTiming (runN 105) = 100 := by
  refine ⟨?_, by decide, ?_⟩
  · intro now s r h
    unfold getSessionStatistics at h
    split at h
    · exact absurd h (by simp)
    · rw [Option.some_inj] at h
      rw [← h]
      rfl
  · rw [sizeTiming_eq_keys_length, runN105_keys.1]
    rfl

/-- C6 witness: the amended statement discharged on the concrete
10-snapshot run. -/
theorem session_statistics_total_updates_amended_witness :
    ({ sessionDuration := 0, totalUpdates := 10, currentLeader := none,
       fastestLap := none, totalDrivers := 0 } : SessionStats).totalUpdates =
      sizeTiming (runN 10) :=
  session_statistics_total_updates_amended.1 0 (runN 10)
    { sessionDuration := 0, totalUpdates := 10, currentLeader := none,
      fastestLap := none, totalDrivers := 0 } (by decide)

/-! ## C5 (amended) — degradation slope semantics of the source -/

/-- Every name producedpandas-style by unique() names some row. -/
theorem mem_uniqueDrivers (laps : List CompoundLap) (d : String) :
    d ∈ uniqueDrivers laps → ∃ l ∈ laps, l.driver = d := by
  suffices h : ∀ acc : List String,
      d ∈ laps.foldl
        (fun acc l => if acc.contains l.driver then acc else acc ++ [l.driver]) acc →
      d ∈ acc ∨ ∃ l ∈ laps, l.driver = d by
    intro hd
    rcases h [] hd with h1 | h1
    · cases h1
    · exact h1
  induction laps with
  | nil => exact fun acc h => Or.inl h
  | cons l rest ih =>
    intro acc h
    rcases ih (if acc.contains l.driver then acc else acc ++ [l.driver]) h with h1 | h1
    · by_cases hc : acc.contains l.driver = true
      · rw [if_pos hc] at h1
        exact Or.inl h1
      · rw [if_neg hc] at h1
        rcases List.mem_append.mp h1 with h2 | h2
        · exact Or.inl h2
        · have h3 : d = l.driver := by simpa using h2
          exact Or.inr ⟨l, List.mem_cons_self l rest, h3.symm⟩
    · obtain ⟨l2, hl2, hd2⟩ := h1
      exact Or.inr ⟨l2, List.mem_cons_of_mem l hl2, hd2⟩

/-- C5 (amended): the reported rate is the mean over drivers with at
least 3 laps on the compound of one least-squares slope fit across ALL
of that driver's laps on the compound, contiguous or not (see the
counterexample for the divergence from per-stint fitting); the 0.0
default is reported when the compound table has fewer than 3 rows or
no driver qualifies; the sign tests hold exactly: laps 80,81,82,83 on
consecutive lap numbers give slope 1 and the reversed times give
slope -1. -/
theorem degradation_amended :
    calculateDegradation degradationUpLaps = 1 ∧
    calculateDegradation degradationDownLaps = -1 ∧
    (∀ laps : List CompoundLap, laps.length < 3 → calculateDegradation laps = 0) ∧
    (∀ laps : List CompoundLap,
        (∀ l ∈ laps, (driverLapsOn laps l.driver).length < 3) →
        calculateDegradation laps = 0) := by
  refine ⟨by with_unfolding_all decide, by with_unfolding_all decide, ?_, ?_⟩
  · intro laps h
    unfold calculateDegradation
    rw [if_pos h]
  · intro laps h
    unfold calculateDegradation
    split
    · rfl
    · have hany : laps.any
          (fun l => l.lapTime.isNone &&
            decide (3 ≤ (driverLapsOn laps l.driver).length)) = false := by
        rw [List.any_eq_false]
        intro l hl
        have hcount := h l hl
        simp only [Bool.and_eq_true, decide_eq_true_eq, not_and]
        intro _
        omega
      rw [if_neg (by simp [hany])]
      have hrates : (uniqueDrivers laps).filterMap (fun d =>
          let dl := driverLapsOn laps d
          if 3 ≤ dl.length then
            some (lsqSlope (dl.map (fun l => l.lapNumber))
              (dl.filterMap (fun l => l.lapTime)))
          else none) = [] := by
        rw [List.filterMap_eq_nil_iff]
        intro d hd
        obtain ⟨l, hl, hld⟩ := mem_uniqueDrivers laps d hd
        have hcount := h l hl
        rw [hld] at hcount
        simp only
        rw [if_neg (by omega)]
      simp only [hrates]
      rfl

/-- C5 witness: the 0.0 defaults discharged on an empty compound table
and on a single-row table. -/
theorem degradation_amended_witness :
    calculateDegradation ([] : List CompoundLap) = 0 ∧
    calculateDegradation [{ driver := "A", lapNumber := 1, lapTime := some 80 }] = 0 :=
  ⟨degradation_amended.2.2.1 [] (by decide),
    degradation_amended.2.2.2 [{ driver := "A", lapNumber := 1, lapTime := some 80 }]
      (by decide)⟩

/-! ## C9 (amended) — missing-field policy per operation -/

/-- Dropping the missing entries first does not change the extracted
valid values. -/
theorem filterMap_id_filter_isSome (laps : List (Option ℚ)) :
    (laps.filter (fun o => o.isSome)).filterMap id = laps.filterMap id := by
  induction laps with
  | nil => rfl
  | cons o rest ih =>
    cases o with
    | none => simpa using ih
    | some v => simp [ih]

/-- The dropna of a dropna is the dropna. -/
theorem validLaps_idem (laps : List Lap) : validLaps (validLaps laps) = validLaps laps := by
  unfold validLaps
  rw [List.filter_filter]
  apply List.filter_congr
  intro x _
  simp

/-- C9 (amended): pace summary and pit-stop detection drop records
with missing lap times before any aggregate — their results are
invariant under removing those records up front — but degradation
estimation does not: a missing lap time on a driver with at least 3
rows on the compound is fed into the fit and collapses the whole
compound to the 0.0 default, while dropping it first would yield the
slope of the remaining laps (1 on the concrete input). -/
theorem missing_field_policy_amended :
    (∀ laps : List (Option ℚ),
        generateRacePaceAnalysis laps =
          generateRacePaceAnalysis (laps.filter (fun o => o.isSome))) ∧
    (∀ (driver : String) (laps : List Lap),
        analyzePitStopPerformance driver laps =
          analyzePitStopPerformance driver (validLaps laps)) ∧
    calculateDegradation missingTimeLaps = 0 ∧
    calculateDegradation (missingTimeLaps.filter (fun l => l.lapTime.isSome)) = 1 := by
  refine ⟨?_, ?_, by with_unfolding_all decide, by with_unfolding_all decide⟩
  · intro laps
    simp only [generateRacePaceAnalysis, filterMap_id_filter_isSome]
  · intro driver laps
    simp only [analyzePitStopPerformance, validLaps_idem]

/-! ## C4 — pit-stop detection -/

/-- Over rows that all carry a lap time, the source filterMap is the
spec-side filter-then-build: exactly the laps whose time strictly
exceeds the threshold produce events. -/
theorem pit_filterMap_eq_map_filter (driver : String) (m : ℚ) (valid : List Lap) :
    ∀ L : List Lap, (∀ l ∈ L, l.lapTime.isSome = true) →
      L.filterMap (fun l =>
        match l.lapTime with
        | some t => if m * (3 / 2) < t then some (pitStopEvent driver m valid l) else none
        | none => none) =
      (L.filter (fun l => decide (m * (3 / 2) < l.lapTime.getD 0))).map
        (pitStopEvent driver m valid) := by
  intro L
  induction L with
  | nil => intro _; rfl
  | cons l rest ih =>
    intro h
    have hl := h l (List.mem_cons_self l rest)
    have hrest : ∀ x ∈ rest, x.lapTime.isSome = true :=
      fun x hx => h x (List.mem_cons_of_mem l hx)
    obtain ⟨t, ht⟩ := Option.isSome_iff_exists.mp hl
    simp only [List.filterMap_cons, List.filter_cons, ht]
    by_cases hc : m * (3 / 2) < t
    · simp [hc, ih hrest, ht]
    · simp [hc, ih hrest, ht]

/-- C4: for a driver with fewer than 3 valid laps no events are
produced; with at least 3 valid laps the events are exactly one per
valid lap whose time strictly exceeds 1.5 times the median of the
valid lap times, built by pitStopEvent (pit_time_delta equals lap time
minus median, compound_before is the compound of the valid lap
numbered one less when present, compound_after the flagged compound);
on the synthetic driver 90,90,90,90,140 exactly the 140 lap is flagged
with delta 50. -/
theorem pit_stop_detection :
    (∀ (driver : String) (laps : List Lap),
        (validLaps laps).length < 3 → analyzePitStopPerformance driver laps = []) ∧
    (∀ (driver : String) (laps : List Lap), 3 ≤ (validLaps laps).length →
        analyzePitStopPerformance driver laps =
          ((validLaps laps).filter (fun l =>
            decide (medianRat ((validLaps laps).filterMap (fun p => p.lapTime)) * (3 / 2) <
              l.lapTime.getD 0))).map
            (pitStopEvent driver
              (medianRat ((validLaps laps).filterMap (fun p => p.lapTime)))
              (validLaps laps))) ∧
    analyzePitStopPerformance "X" pitTestLaps =
      [{ driver := "X", lapNumber := 5, pitTimeDelta := 50,
         compoundBefore := some "MEDIUM", compoundAfter := some "MEDIUM" }] := by
  refine ⟨?_, ?_, by with_unfolding_all decide⟩
  · intro driver laps h
    unfold analyzePitStopPerformance
    rw [if_pos h]
  · intro driver laps h
    unfold analyzePitStopPerformance
    rw [if_neg (by omega)]
    exact pit_filterMap_eq_map_filter driver _ (validLaps laps) (validLaps laps)
      (fun l hl => (List.mem_filter.mp hl).2)

/-- C4 witness: no events for an empty lap table, and the
filter-characterization discharged on the synthetic driver. -/
theorem pit_stop_detection_witness :
    analyzePitStopPerformance "X" ([] : List Lap) = [] ∧
    analyzePitStopPerformance "X" pitTestLaps =
      ((validLaps pitTestLaps).filter (fun l =>
        decide (medianRat ((validLaps pitTestLaps).filterMap (fun p => p.lapTime)) * (3 / 2) <
          l.lapTime.getD 0))).map
        (pitStopEvent "X"
          (medianRat ((validLaps pitTestLaps).filterMap (fun p => p.lapTime)))
          (validLaps pitTestLaps)) :=
  ⟨pit_stop_detection.1 "X" [] (by decide),
    pit_stop_detection.2.1 "X" pitTestLaps (by with_unfolding_all decide)⟩

/-! ## C3 — race pace analysis -/

/-- A linear-interpolation quantile of a constant sample is that
constant, for any order 0 ≤ q ≤ 1. -/
theorem quantile_of_all_eq (xs : List ℚ) (v q : ℚ) (hne : xs ≠ [])
    (hall : ∀ x ∈ xs, x = v) (hq0 : 0 ≤ q) (hq1 : q ≤ 1) :
    quantile xs q = v := by
  simp only [quantile]
  have hperm : (sortRat xs).Perm xs := List.perm_insertionSort _ xs
  have hsall : ∀ x ∈ sortRat xs, x = v := fun x hx => hall x (hperm.mem_iff.mp hx)
  have hpos : 0 < (sortRat xs).length := by
    rw [hperm.length_eq]
    exact List.length_pos.mpr hne
  set s := sortRat xs with hs
  set n := s.length with hn
  set h : ℚ := q * ((n : ℚ) - 1) with hh
  have hn1 : (1 : ℚ) ≤ (n : ℚ) := by exact_mod_cast hpos
  have hh0 : 0 ≤ h := by
    apply mul_nonneg hq0
    linarith
  have hhle : h ≤ (n : ℚ) - 1 := by
    have h1 : (0 : ℚ) ≤ (n : ℚ) - 1 := by linarith
    nlinarith
  have hfl : (h.floor : ℚ) ≤ h := by
    rw [ratFloor_eq_intFloor]
    exact Int.floor_le h
  have hfl0 : 0 ≤ h.floor := by
    rw [ratFloor_eq_intFloor]
    exact Int.floor_nonneg.mpr hh0
  have hfln : h.floor ≤ (n : ℤ) - 1 := by
    rw [ratFloor_eq_intFloor]
    have h2 := Int.floor_mono (α := ℚ) (show h ≤ (((n : ℤ) - 1 : ℤ) : ℚ) by push_cast; linarith)
    rwa [Int.floor_intCast] at h2
  have htn : (h.floor.toNat : ℤ) = h.floor := Int.toNat_of_nonneg hfl0
  have hlon : h.floor.toNat < n := by omega
  have hgetlo : s.getD h.floor.toNat 0 = v := by
    rw [List.getD_eq_getElem s 0 hlon]
    exact hsall _ (List.getElem_mem hlon)
  by_cases hlo1 : h.floor.toNat + 1 < n
  · have hget1 : s.getD (h.floor.toNat + 1) 0 = v := by
      rw [List.getD_eq_getElem s 0 hlo1]
      exact hsall _ (List.getElem_mem hlo1)
    rw [hgetlo, hget1]
    ring
  · have hfl_int : h.floor = (n : ℤ) - 1 := by omega
    have hcast : ((h.floor : ℚ)) = (n : ℚ) - 1 := by
      rw [hfl_int]
      push_cast
      ring
    have hfrac : h - (h.floor : ℚ) = 0 := by
      have h2 : h = (n : ℚ) - 1 := le_antisymm hhle (by rw [← hcast]; exact hfl)
      rw [hcast, h2]
      ring
    rw [hgetlo, hfrac]
    ring

/-- C3: drivers with fewer than 5 valid lap times are excluded with an
absent result, never an error; with at least 5, the clean laps are
exactly the valid lap times in the closed Tukey fence
Q1 - 1.5 IQR .. Q3 + 1.5 IQR, average_pace is the mean and
consistency the sample spread (verified on its square, the sample
variance) of that clean subset, fastest_lap is the minimum of the full
valid set, clean count never exceeds total count, and when all valid
lap times are identical the clean count equals the total count. -/
theorem race_pace_analysis (laps : List (Option ℚ)) :
    ((laps.filterMap id).length < 5 → generateRacePaceAnalysis laps = none) ∧
    (∀ r : PaceSummary, generateRacePaceAnalysis laps = some r →
      5 ≤ (laps.filterMap id).length ∧
      r.totalLaps = (laps.filterMap id).length ∧
      r.cleanLaps ≤ r.totalLaps ∧
      r.fastestLap = ratMin (laps.filterMap id) ∧
      r.cleanLaps = (tukeyClean (laps.filterMap id)).length ∧
      r.averagePace = ratMean (tukeyClean (laps.filterMap id)) ∧
      r.consistencyVar = sampleVariance (tukeyClean (laps.filterMap id)) ∧
      ∀ t : ℚ, t ∈ tukeyClean (laps.filterMap id) ↔
        t ∈ laps.filterMap id ∧
        (quantile (laps.filterMap id) (1 / 4) -
            3 / 2 * (quantile (laps.filterMap id) (3 / 4) -
              quantile (laps.filterMap id) (1 / 4)) ≤ t ∧
          t ≤ quantile (laps.filterMap id) (3 / 4) +
            3 / 2 * (quantile (laps.filterMap id) (3 / 4) -
              quantile (laps.filterMap id) (1 / 4)))) ∧
    (∀ v : ℚ, (∀ x ∈ laps.filterMap id, x = v) →
      ∀ r : PaceSummary, generateRacePaceAnalysis laps = some r →
        r.cleanLaps = r.totalLaps) := by
  refine ⟨?_, ?_, ?_⟩
  · intro h
    unfold generateRacePaceAnalysis
    rw [if_pos h]
  · intro r hr
    by_cases h5 : (laps.filterMap id).length < 5
    · unfold generateRacePaceAnalysis at hr
      rw [if_pos h5] at hr
      exact absurd hr (by simp)
    · unfold generateRacePaceAnalysis at hr
      rw [if_neg h5] at hr
      rw [Option.some_inj] at hr
      subst hr
      refine ⟨by omega, rfl, List.length_filter_le _ _, rfl, rfl, rfl, rfl, ?_⟩
      intro t
      simp [tukeyClean, List.mem_filter]
  · intro v hv r hr
    by_cases h5 : (laps.filterMap id).length < 5
    · unfold generateRacePaceAnalysis at hr
      rw [if_pos h5] at hr
      exact absurd hr (by simp)
    · unfold generateRacePaceAnalysis at hr
      rw [if_neg h5] at hr
      rw [Option.some_inj] at hr
      subst hr
      show ((laps.filterMap id).filter _).length = (laps.filterMap id).length
      have hne : laps.filterMap id ≠ [] := by
        intro h0
        rw [h0] at h5
        exact h5 (by decide)
      have hq1 := quantile_of_all_eq (laps.filterMap id) v (1 / 4) hne hv
        (by norm_num) (by norm_num)
      have hq3 := quantile_of_all_eq (laps.filterMap id) v (3 / 4) hne hv
        (by norm_num) (by norm_num)
      have hkeep : (laps.filterMap id).filter
          (fun t => decide (quantile (laps.filterMap id) (1 / 4) -
              3 / 2 * (quantile (laps.filterMap id) (3 / 4) -
                quantile (laps.filterMap id) (1 / 4)) ≤ t ∧
            t ≤ quantile (laps.filterMap id) (3 / 4) +
              3 / 2 * (quantile (laps.filterMap id) (3 / 4) -
                quantile (laps.filterMap id) (1 / 4)))) = laps.filterMap id := by
        apply List.filter_eq_self.mpr
        intro t ht
        rw [hq1, hq3, hv t ht]
        simp only [decide_eq_true_eq]
        constructor <;> nlinarith
      rw [hkeep]

/-- C3 witness: the absent result for a single lap, the
clean-at-most-total bound on the concrete five-lap driver, and the
all-identical case keeping every lap. -/
theorem race_pace_analysis_witness :
    generateRacePaceAnalysis [some 1] = none ∧
    (4 : Nat) ≤ 5 ∧
    (5 : Nat) = 5 :=
  ⟨(race_pace_analysis [some 1]).1 (by decide),
    ((race_pace_analysis paceWitnessLaps).2.1
      { averagePace := 183 / 2, consistencyVar := 5 / 3, fastestLap := 90,
        totalLaps := 5, cleanLaps := 4 }
      (by with_unfolding_all decide)).2.2.1,
    (race_pace_analysis [some 90, some 90, some 90, some 90, some 90]).2.2 90
      (by with_unfolding_all decide)
      { averagePace := 90, consistencyVar := 0, fastestLap := 90,
        totalLaps := 5, cleanLaps := 5 }
      (by with_unfolding_all decide)⟩
